import Mathlib

/-!
Shallow embedding of `src/wasm/parse_edid_buffer.cpp`: the WASM buffer-based
entry point of an EDID decoder.  The external parsing engine (`edid_state`,
`state.parse_edid()`) is treated as an opaque collaborator; the two compile-time
constants `EDID_PAGE_SIZE` and `EDID_MAX_BLOCKS` are kept abstract in a
configuration record, since the claims quantify over them as `page_size` and
`maximum block count`.
-/

namespace EdidBuffer

/-- The compile-time constants shared with the parsing engine:
`EDID_PAGE_SIZE` (one page's byte size) and `EDID_MAX_BLOCKS`
(maximum number of extension blocks). -/
structure Config where
  EDID_PAGE_SIZE : Nat
  EDID_MAX_BLOCKS : Nat

/-- `sizeof(edid_input_buffer)` — the staging-area capacity, the source's
`static unsigned char edid_input_buffer[EDID_PAGE_SIZE * EDID_MAX_BLOCKS]`.
This is also what `get_edid_buffer_size` returns. -/
def get_edid_buffer_size (cfg : Config) : Nat :=
  cfg.EDID_PAGE_SIZE * cfg.EDID_MAX_BLOCKS

/-- Modelled from the spec: the engine's decoder-state record (`struct edid_state`
is owned by the external engine and not part of `src/`).  The dispatcher touches
`edid_size` and `num_blocks`; all remaining fields are collapsed into the
opaque `misc` component. -/
structure edid_state where
  edid_size : Nat
  num_blocks : Nat
  misc : Nat
deriving DecidableEq, Repr

/-- Modelled from the spec: the value-initialized `edid_state()` — the
"initial/empty configuration" every call resets to (counters zero). -/
def edidStateInit : edid_state :=
  { edid_size := 0, num_blocks := 0, misc := 0 }

/-- Modelled from the spec: the engine's option-flag indices (the `Option`
enum is owned by the external engine); only distinctness matters. -/
def OptCheck : Nat := 0

/-- Option index for the preferred-timings check. -/
def OptPreferredTimings : Nat := 1

/-- Option index for the native-resolution check. -/
def OptNativeResolution : Nat := 2

/-- Option index for checksum (SHA) skipping. -/
def OptSkipSHA : Nat := 3

/-- Option index for UTF-8 text encoding. -/
def OptUTF8 : Nat := 4

/-- The process-wide mutable resources the dispatcher reads and writes:
the staging buffer `edid_input_buffer`, the decoder working copy `edid`,
the per-block per-kind message logs `s_msgs`, the option-flag array
`options`, and the engine's decoder state `state`.  Byte regions are
modelled as functions from index to byte value. -/
structure Machine where
  edid_input_buffer : Nat → Nat
  edid : Nat → Nat
  s_msgs : Nat → Bool → List String
  options : Nat → Nat
  state : edid_state

/-- `get_edid_buffer()` — the staging region exposed to the caller. -/
def get_edid_buffer (m : Machine) : Nat → Nat :=
  m.edid_input_buffer

/-- One iteration of the reset loop: `s_msgs[i][0].clear(); s_msgs[i][1].clear();`. -/
def clearBlock (s : Nat → Bool → List String) (i : Nat) : Nat → Bool → List String :=
  fun j k => if j = i then [] else s j k

/-- The reset loop `for (unsigned i = 0; i < EDID_MAX_BLOCKS + 1; i++)`,
clearing both message logs of every block index below `n`. -/
def clearMsgsUpTo (s : Nat → Bool → List String) (n : Nat) : Nat → Bool → List String :=
  (List.range n).foldl clearBlock s

/-- Writing one cell of the `options` array. -/
def setOpt (o : Nat → Nat) (i v : Nat) : Nat → Nat :=
  fun j => if j = i then v else o j

/-- The five option assignments of the dispatcher, in source order:
`options[OptCheck] = 1; options[OptPreferredTimings] = 1;
options[OptNativeResolution] = 1; options[OptSkipSHA] = 0;
options[OptUTF8] = 1;`. -/
def resetOptions (o : Nat → Nat) : Nat → Nat :=
  setOpt (setOpt (setOpt (setOpt (setOpt o OptCheck 1)
    OptPreferredTimings 1) OptNativeResolution 1) OptSkipSHA 0) OptUTF8 1

/-- The unconditional prelude of `parse_edid_buffer`: clear the message logs
for block indices `0 .. EDID_MAX_BLOCKS` inclusive, set the option flags to
their fixed defaults, and reset the decoder state with `state = edid_state()`. -/
def resetForParse (cfg : Config) (m : Machine) : Machine :=
  { m with
    s_msgs := clearMsgsUpTo m.s_msgs (cfg.EDID_MAX_BLOCKS + 1)
    options := resetOptions m.options
    state := edidStateInit }

/-- The fixed 8-byte EDID signature `"\x00\xFF\xFF\xFF\xFF\xFF\xFF\x00"`. -/
def edidHeader : List Nat := [0x00, 0xFF, 0xFF, 0xFF, 0xFF, 0xFF, 0xFF, 0x00]

/-- `memcmp(edid_input_buffer, "\x00\xFF...\x00", 8) == 0`: the first 8 bytes
of the buffer equal the fixed signature. -/
def hasEdidHeader (buf : Nat → Nat) : Bool :=
  (List.range 8).all fun i => buf i == edidHeader.getD i 0

/-- A diagnostic written to `stderr` by the dispatcher; `text` below renders
the exact `fprintf` format strings. -/
inductive StderrMsg where
  | invalidSize (len : Nat)
  | noHeader
deriving DecidableEq, Repr

/-- The exact diagnostic text of each `fprintf(stderr, ...)` call. -/
def StderrMsg.text : StderrMsg → String
  | .invalidSize len => "Invalid EDID size: " ++ toString len ++ " bytes\n"
  | .noHeader => "No EDID header found.\n"

/-- Everything observable about one call to `parse_edid_buffer`: the returned
status code, the machine state when the call returns, the machine state
handed to the engine (`none` when the engine was never invoked — the
engine is invoked at most once, hence an `Option`), and the diagnostics
written to `stderr` during the call. -/
structure ParseResult where
  ret : Int
  machine : Machine
  engineArg : Option Machine
  stderr : List StderrMsg

/-- The success-path mutations of `parse_edid_buffer`:
`memcpy(edid, edid_input_buffer, len)` (exactly `len` bytes; indices at or
beyond `len` keep their old working-copy value), then
`state.edid_size = len;` and `state.num_blocks = len / EDID_PAGE_SIZE;`. -/
def copyAndRecord (cfg : Config) (m1 : Machine) (len : Nat) : Machine :=
  { m1 with
    edid := fun i => if i < len then m1.edid_input_buffer i else m1.edid i
    state := { m1.state with
      edid_size := len
      num_blocks := len / cfg.EDID_PAGE_SIZE } }

/-- `int parse_edid_buffer(unsigned int len)`, with the external engine's
`state.parse_edid()` entry point abstracted as the function argument
`engine`:
1. unconditionally reset logs, options and state (`resetForParse`);
2. reject with `-1` and an "Invalid EDID size" diagnostic if
   `len < EDID_PAGE_SIZE || len > sizeof(edid_input_buffer)`;
3. reject with `-1` and a "No EDID header found" diagnostic if the first
   8 staging bytes are not the EDID signature;
4. otherwise copy and record the size metadata (`copyAndRecord`) and
   return `state.parse_edid()` unchanged. -/
def parse_edid_buffer (cfg : Config) (engine : Machine → Int)
    (m : Machine) (len : Nat) : ParseResult :=
  let m1 := resetForParse cfg m
  if len < cfg.EDID_PAGE_SIZE ∨ get_edid_buffer_size cfg < len then
    { ret := -1, machine := m1, engineArg := none
      stderr := [StderrMsg.invalidSize len] }
  else if ¬ hasEdidHeader m1.edid_input_buffer then
    { ret := -1, machine := m1, engineArg := none
      stderr := [StderrMsg.noHeader] }
  else
    let m2 := copyAndRecord cfg m1 len
    { ret := engine m2, machine := m2, engineArg := some m2, stderr := [] }

/-- A concrete configuration for witnesses: page size 128, at most 8 blocks
(capacity 1024) — the spec's Scenario A numbers. -/
def cfgW : Config := { EDID_PAGE_SIZE := 128, EDID_MAX_BLOCKS := 8 }

/-- A witness staging buffer: the EDID signature followed by zeros. -/
def bufW : Nat → Nat :=
  fun i => if i = 0 ∨ i = 7 then 0 else if i < 8 then 0xFF else 0

/-- A witness machine populated with `bufW` and residue in logs and state. -/
def mW : Machine :=
  { edid_input_buffer := bufW
    edid := fun _ => 9
    s_msgs := fun _ _ => ["stale"]
    options := fun _ => 5
    state := { edid_size := 77, num_blocks := 3, misc := 1 } }

/-- A witness machine whose staging buffer lacks the signature. -/
def mBad : Machine :=
  { edid_input_buffer := fun _ => 0
    edid := fun _ => 9
    s_msgs := fun _ _ => ["stale"]
    options := fun _ => 5
    state := { edid_size := 77, num_blocks := 3, misc := 1 } }

/-- A witness engine returning a fixed engine-defined code. -/
def engineW : Machine → Int := fun _ => 7

/-- A second witness machine: same first 8 staging bytes as `mW`, different
everywhere else. -/
def mW2 : Machine :=
  { edid_input_buffer := fun i => if i < 8 then bufW i else 17
    edid := fun _ => 4
    s_msgs := fun _ _ => []
    options := fun _ => 0
    state := { edid_size := 0, num_blocks := 0, misc := 0 } }

/-- The machine handed to the engine on the witness call `parse(128)`. -/
def meW : Machine := copyAndRecord cfgW (resetForParse cfgW mW) 128

/-- The machine handed to the engine on the witness call `parse(385)`
(`385 = 3 * 128 + 1`). -/
def meW5 : Machine := copyAndRecord cfgW (resetForParse cfgW mW) 385

/-! ### Helper lemmas -/

theorem clearMsgsUpTo_apply (s : Nat → Bool → List String) (n j : Nat) (k : Bool) :
    clearMsgsUpTo s n j k = if j < n then [] else s j k := by
  induction n with
  | zero => simp [clearMsgsUpTo]
  | succ n ih =>
    unfold clearMsgsUpTo at ih ⊢
    rw [List.range_succ, List.foldl_append]
    simp only [List.foldl_cons, List.foldl_nil, clearBlock]
    by_cases hj : j = n
    · subst hj; simp
    · simp only [hj, if_false, ih]
      by_cases h1 : j < n
      · simp [h1, Nat.lt_succ_of_lt h1]
      · have h2 : ¬ j < n + 1 := by omega
        simp [h1, h2]

theorem hasEdidHeader_congr (b b2 : Nat → Nat)
    (h : ∀ i, i < 8 → b i = b2 i) : hasEdidHeader b = hasEdidHeader b2 := by
  have hr : List.range 8 = [0, 1, 2, 3, 4, 5, 6, 7] := rfl
  simp only [hasEdidHeader, hr, List.all_cons, List.all_nil]
  rw [h 0 (by omega), h 1 (by omega), h 2 (by omega), h 3 (by omega),
    h 4 (by omega), h 5 (by omega), h 6 (by omega), h 7 (by omega)]

theorem resetForParse_edid_input_buffer (cfg : Config) (m : Machine) :
    (resetForParse cfg m).edid_input_buffer = m.edid_input_buffer := rfl

theorem resetForParse_edid (cfg : Config) (m : Machine) :
    (resetForParse cfg m).edid = m.edid := rfl

theorem parse_of_invalid (cfg : Config) (engine : Machine → Int) (m : Machine)
    (len : Nat) (h : len < cfg.EDID_PAGE_SIZE ∨ get_edid_buffer_size cfg < len) :
    parse_edid_buffer cfg engine m len =
      { ret := -1, machine := resetForParse cfg m, engineArg := none
        stderr := [StderrMsg.invalidSize len] } := by
  simp only [parse_edid_buffer]
  rw [if_pos h]

theorem parse_of_noHeader (cfg : Config) (engine : Machine → Int) (m : Machine)
    (len : Nat) (h1 : ¬ (len < cfg.EDID_PAGE_SIZE ∨ get_edid_buffer_size cfg < len))
    (h2 : hasEdidHeader m.edid_input_buffer = false) :
    parse_edid_buffer cfg engine m len =
      { ret := -1, machine := resetForParse cfg m, engineArg := none
        stderr := [StderrMsg.noHeader] } := by
  simp only [parse_edid_buffer]
  rw [if_neg h1, resetForParse_edid_input_buffer, if_pos (by simp [h2])]

theorem parse_of_ok (cfg : Config) (engine : Machine → Int) (m : Machine)
    (len : Nat) (h1 : ¬ (len < cfg.EDID_PAGE_SIZE ∨ get_edid_buffer_size cfg < len))
    (h2 : hasEdidHeader m.edid_input_buffer = true) :
    parse_edid_buffer cfg engine m len =
      { ret := engine (copyAndRecord cfg (resetForParse cfg m) len)
        machine := copyAndRecord cfg (resetForParse cfg m) len
        engineArg := some (copyAndRecord cfg (resetForParse cfg m) len)
        stderr := [] } := by
  simp only [parse_edid_buffer]
  rw [if_neg h1, resetForParse_edid_input_buffer, if_neg (by simp [h2])]

/-! ### Claim theorems -/

/-- C1: `parse` produces the invalid-size failure (status `-1`, no engine
invocation, the "Invalid EDID size" diagnostic) exactly when `declared_length`
is outside `[page_size, capacity]`; such a call fails before the copy, leaving
the recorded size at its post-reset default, and `declared_length = capacity`
passes this check. -/
theorem parse_invalid_size_gate (cfg : Config) (engine : Machine → Int)
    (m : Machine) (len : Nat) :
    (((parse_edid_buffer cfg engine m len).ret = -1 ∧
        (parse_edid_buffer cfg engine m len).engineArg = none ∧
        (parse_edid_buffer cfg engine m len).stderr = [StderrMsg.invalidSize len]) ↔
      (len < cfg.EDID_PAGE_SIZE ∨ get_edid_buffer_size cfg < len)) ∧
    ((len < cfg.EDID_PAGE_SIZE ∨ get_edid_buffer_size cfg < len) →
      (parse_edid_buffer cfg engine m len).machine.state.edid_size =
        edidStateInit.edid_size) ∧
    (cfg.EDID_PAGE_SIZE ≤ get_edid_buffer_size cfg →
      (parse_edid_buffer cfg engine m (get_edid_buffer_size cfg)).stderr ≠
        [StderrMsg.invalidSize (get_edid_buffer_size cfg)]) := by
  refine ⟨?_, ?_, ?_⟩
  · by_cases h : len < cfg.EDID_PAGE_SIZE ∨ get_edid_buffer_size cfg < len
    · rw [parse_of_invalid cfg engine m len h]
      simp [h]
    · cases hh : hasEdidHeader m.edid_input_buffer with
      | false => rw [parse_of_noHeader cfg engine m len h hh]; simp [h]
      | true => rw [parse_of_ok cfg engine m len h hh]; simp [h]
  · intro h
    rw [parse_of_invalid cfg engine m len h]
    rfl
  · intro hcap
    have h1 : ¬ (get_edid_buffer_size cfg < cfg.EDID_PAGE_SIZE ∨
        get_edid_buffer_size cfg < get_edid_buffer_size cfg) := by omega
    cases hh : hasEdidHeader m.edid_input_buffer with
    | false =>
      rw [parse_of_noHeader cfg engine m (get_edid_buffer_size cfg) h1 hh]
      simp
    | true =>
      rw [parse_of_ok cfg engine m (get_edid_buffer_size cfg) h1 hh]
      simp

theorem parse_invalid_size_gate_witness :
    (64 < cfgW.EDID_PAGE_SIZE ∨ get_edid_buffer_size cfgW < 64) ∧
    (parse_edid_buffer cfgW engineW mW 64).machine.state.edid_size =
      edidStateInit.edid_size :=
  ⟨Or.inl (by decide),
    (parse_invalid_size_gate cfgW engineW mW 64).2.1 (Or.inl (by decide))⟩

/-- C2: whenever the first 8 staging bytes differ from the fixed signature,
`parse` returns the failure status `-1` and never invokes the engine,
whatever `declared_length` is. -/
theorem parse_no_header_gate (cfg : Config) (engine : Machine → Int)
    (m : Machine) (len : Nat)
    (h : hasEdidHeader m.edid_input_buffer = false) :
    (parse_edid_buffer cfg engine m len).ret = -1 ∧
    (parse_edid_buffer cfg engine m len).engineArg = none := by
  by_cases h1 : len < cfg.EDID_PAGE_SIZE ∨ get_edid_buffer_size cfg < len
  · rw [parse_of_invalid cfg engine m len h1]
    exact ⟨rfl, rfl⟩
  · rw [parse_of_noHeader cfg engine m len h1 h]
    exact ⟨rfl, rfl⟩

theorem parse_no_header_gate_witness :
    hasEdidHeader mBad.edid_input_buffer = false ∧
    (parse_edid_buffer cfgW engineW mBad 128).ret = -1 :=
  ⟨by decide, (parse_no_header_gate cfgW engineW mBad 128 (by decide)).1⟩

/-- C3: every call unconditionally clears both per-kind message logs for all
block indices `0 .. EDID_MAX_BLOCKS` inclusive, sets the option flags to the
fixed defaults (structural check, preferred timings, native resolution and
UTF-8 on; checksum skip off) and resets the rest of the decoder state to its
initial configuration; consequently the machine `parse` returns — and the one
the engine is invoked on — has empty logs for every block. -/
theorem parse_unconditional_reset (cfg : Config) (engine : Machine → Int)
    (m : Machine) (len : Nat) :
    (resetForParse cfg m).state = edidStateInit ∧
    (∀ i, i ≤ cfg.EDID_MAX_BLOCKS → ∀ k, (resetForParse cfg m).s_msgs i k = []) ∧
    ((resetForParse cfg m).options OptCheck = 1 ∧
      (resetForParse cfg m).options OptPreferredTimings = 1 ∧
      (resetForParse cfg m).options OptNativeResolution = 1 ∧
      (resetForParse cfg m).options OptSkipSHA = 0 ∧
      (resetForParse cfg m).options OptUTF8 = 1) ∧
    (∀ i, i ≤ cfg.EDID_MAX_BLOCKS → ∀ k,
      (parse_edid_buffer cfg engine m len).machine.s_msgs i k = []) ∧
    (∀ me, (parse_edid_buffer cfg engine m len).engineArg = some me →
      me.options = (resetForParse cfg m).options ∧
      ∀ i, i ≤ cfg.EDID_MAX_BLOCKS → ∀ k, me.s_msgs i k = []) := by
  have hmsg : ∀ i, i ≤ cfg.EDID_MAX_BLOCKS → ∀ k,
      clearMsgsUpTo m.s_msgs (cfg.EDID_MAX_BLOCKS + 1) i k = [] := by
    intro i hi k
    rw [clearMsgsUpTo_apply, if_pos (by omega)]
  refine ⟨rfl, fun i hi k => hmsg i hi k, ?_, ?_, ?_⟩
  · simp [resetForParse, resetOptions, setOpt, OptCheck, OptPreferredTimings,
      OptNativeResolution, OptSkipSHA, OptUTF8]
  · by_cases h1 : len < cfg.EDID_PAGE_SIZE ∨ get_edid_buffer_size cfg < len
    · rw [parse_of_invalid cfg engine m len h1]
      exact fun i hi k => hmsg i hi k
    · cases hh : hasEdidHeader m.edid_input_buffer with
      | false =>
        rw [parse_of_noHeader cfg engine m len h1 hh]
        exact fun i hi k => hmsg i hi k
      | true =>
        rw [parse_of_ok cfg engine m len h1 hh]
        exact fun i hi k => hmsg i hi k
  · by_cases h1 : len < cfg.EDID_PAGE_SIZE ∨ get_edid_buffer_size cfg < len
    · rw [parse_of_invalid cfg engine m len h1]
      intro me hme
      exact absurd hme (by simp)
    · cases hh : hasEdidHeader m.edid_input_buffer with
      | false =>
        rw [parse_of_noHeader cfg engine m len h1 hh]
        intro me hme
        exact absurd hme (by simp)
      | true =>
        rw [parse_of_ok cfg engine m len h1 hh]
        intro me hme
        have hme' : some (copyAndRecord cfg (resetForParse cfg m) len) = some me := hme
        obtain rfl := Option.some.inj hme'
        exact ⟨rfl, fun i hi k => hmsg i hi k⟩

theorem parse_unconditional_reset_witness :
    2 ≤ cfgW.EDID_MAX_BLOCKS ∧
    (parse_edid_buffer cfgW engineW mW 128).machine.s_msgs 2 false = [] :=
  ⟨by decide,
    (parse_unconditional_reset cfgW engineW mW 128).2.2.2.1 2 (by decide) false⟩

/-- C4: whenever the checks pass and the engine is invoked, the working copy
it sees agrees byte-for-byte with the staging region on `[0, declared_length)`,
bytes at or beyond `declared_length` were not copied (they keep their previous
working-copy value), and the staging region itself is untouched. -/
theorem parse_copy_fidelity (cfg : Config) (engine : Machine → Int)
    (m : Machine) (len : Nat) (me : Machine)
    (h : (parse_edid_buffer cfg engine m len).engineArg = some me) :
    (∀ i, i < len → me.edid i = m.edid_input_buffer i) ∧
    (∀ i, len ≤ i → me.edid i = m.edid i) ∧
    me.edid_input_buffer = m.edid_input_buffer := by
  by_cases h1 : len < cfg.EDID_PAGE_SIZE ∨ get_edid_buffer_size cfg < len
  · rw [parse_of_invalid cfg engine m len h1] at h
    exact absurd h (by simp)
  · cases hh : hasEdidHeader m.edid_input_buffer with
    | false =>
      rw [parse_of_noHeader cfg engine m len h1 hh] at h
      exact absurd h (by simp)
    | true =>
      rw [parse_of_ok cfg engine m len h1 hh] at h
      have h' : some (copyAndRecord cfg (resetForParse cfg m) len) = some me := h
      obtain rfl := Option.some.inj h'
      refine ⟨?_, ?_, rfl⟩
      · intro i hi
        show (if i < len then m.edid_input_buffer i else m.edid i) =
          m.edid_input_buffer i
        rw [if_pos hi]
      · intro i hi
        show (if i < len then m.edid_input_buffer i else m.edid i) = m.edid i
        rw [if_neg (by omega)]

theorem parse_copy_fidelity_witness :
    (parse_edid_buffer cfgW engineW mW 128).engineArg = some meW ∧
    meW.edid 3 = mW.edid_input_buffer 3 ∧ meW.edid 200 = mW.edid 200 :=
  ⟨rfl, (parse_copy_fidelity cfgW engineW mW 128 meW rfl).1 3 (by decide),
    (parse_copy_fidelity cfgW engineW mW 128 meW rfl).2.1 200 (by decide)⟩

/-- C5: on every call that passes validation, the recorded total size is set
to exactly `declared_length` and the recorded block count to
`declared_length / page_size` with truncating division; in particular
`declared_length = 3 * page_size + 1` records 3 blocks. -/
theorem parse_size_metadata (cfg : Config) (engine : Machine → Int)
    (m : Machine) (len : Nat) (me : Machine)
    (h : (parse_edid_buffer cfg engine m len).engineArg = some me) :
    me.state.edid_size = len ∧
    me.state.num_blocks = len / cfg.EDID_PAGE_SIZE ∧
    (1 < cfg.EDID_PAGE_SIZE → len = 3 * cfg.EDID_PAGE_SIZE + 1 →
      me.state.num_blocks = 3) := by
  by_cases h1 : len < cfg.EDID_PAGE_SIZE ∨ get_edid_buffer_size cfg < len
  · rw [parse_of_invalid cfg engine m len h1] at h
    exact absurd h (by simp)
  · cases hh : hasEdidHeader m.edid_input_buffer with
    | false =>
      rw [parse_of_noHeader cfg engine m len h1 hh] at h
      exact absurd h (by simp)
    | true =>
      rw [parse_of_ok cfg engine m len h1 hh] at h
      have h' : some (copyAndRecord cfg (resetForParse cfg m) len) = some me := h
      obtain rfl := Option.some.inj h'
      refine ⟨rfl, rfl, ?_⟩
      intro hps hlen
      have hnb : (copyAndRecord cfg (resetForParse cfg m) len).state.num_blocks =
        len / cfg.EDID_PAGE_SIZE := rfl
      rw [hnb, hlen, Nat.mul_comm 3 cfg.EDID_PAGE_SIZE,
        Nat.mul_add_div (by omega), Nat.div_eq_of_lt hps]

theorem parse_size_metadata_witness :
    (parse_edid_buffer cfgW engineW mW 385).engineArg = some meW5 ∧
    1 < cfgW.EDID_PAGE_SIZE ∧ (385 : Nat) = 3 * cfgW.EDID_PAGE_SIZE + 1 ∧
    meW5.state.edid_size = 385 ∧ meW5.state.num_blocks = 3 :=
  ⟨rfl, by decide, by decide,
    (parse_size_metadata cfgW engineW mW 385 meW5 rfl).1,
    (parse_size_metadata cfgW engineW mW 385 meW5 rfl).2.2 (by decide) (by decide)⟩

/-- C6: on every call that passes validation, the engine is invoked (exactly
once, on the machine holding the populated working copy and reset state —
the same machine `parse` returns) and `parse` returns the engine's result
code unchanged. -/
theorem parse_engine_passthrough (cfg : Config) (engine : Machine → Int)
    (m : Machine) (len : Nat) (me : Machine)
    (h : (parse_edid_buffer cfg engine m len).engineArg = some me) :
    (parse_edid_buffer cfg engine m len).ret = engine me ∧
    (parse_edid_buffer cfg engine m len).machine = me := by
  by_cases h1 : len < cfg.EDID_PAGE_SIZE ∨ get_edid_buffer_size cfg < len
  · rw [parse_of_invalid cfg engine m len h1] at h
    exact absurd h (by simp)
  · cases hh : hasEdidHeader m.edid_input_buffer with
    | false =>
      rw [parse_of_noHeader cfg engine m len h1 hh] at h
      exact absurd h (by simp)
    | true =>
      rw [parse_of_ok cfg engine m len h1 hh] at h
      have h' : some (copyAndRecord cfg (resetForParse cfg m) len) = some me := h
      obtain rfl := Option.some.inj h'
      rw [parse_of_ok cfg engine m len h1 hh]
      exact ⟨rfl, rfl⟩

theorem parse_engine_passthrough_witness :
    (parse_edid_buffer cfgW engineW mW 128).engineArg = some meW ∧
    (parse_edid_buffer cfgW engineW mW 128).ret = engineW meW :=
  ⟨rfl, (parse_engine_passthrough cfgW engineW mW 128 meW rfl).1⟩

/-- C7: a call that fails validation leaves the decoder working copy
unchanged (it is mutated only when all checks pass), while the decoder
state — logs, options, state record — is mutated by the unconditional reset
on every call. -/
theorem parse_frame_effects (cfg : Config) (engine : Machine → Int)
    (m : Machine) (len : Nat) :
    ((parse_edid_buffer cfg engine m len).engineArg = none →
      (parse_edid_buffer cfg engine m len).machine.edid = m.edid ∧
      (parse_edid_buffer cfg engine m len).machine.state = edidStateInit) ∧
    (parse_edid_buffer cfg engine m len).machine.s_msgs =
      clearMsgsUpTo m.s_msgs (cfg.EDID_MAX_BLOCKS + 1) ∧
    (parse_edid_buffer cfg engine m len).machine.options =
      resetOptions m.options := by
  by_cases h1 : len < cfg.EDID_PAGE_SIZE ∨ get_edid_buffer_size cfg < len
  · rw [parse_of_invalid cfg engine m len h1]
    exact ⟨fun _ => ⟨rfl, rfl⟩, rfl, rfl⟩
  · cases hh : hasEdidHeader m.edid_input_buffer with
    | false =>
      rw [parse_of_noHeader cfg engine m len h1 hh]
      exact ⟨fun _ => ⟨rfl, rfl⟩, rfl, rfl⟩
    | true =>
      rw [parse_of_ok cfg engine m len h1 hh]
      exact ⟨fun h => absurd h (by simp), rfl, rfl⟩

theorem parse_frame_effects_witness :
    (parse_edid_buffer cfgW engineW mW 64).engineArg = none ∧
    (parse_edid_buffer cfgW engineW mW 64).machine.edid = mW.edid :=
  ⟨rfl, ((parse_frame_effects cfgW engineW mW 64).1 rfl).1⟩

/-- C8: whenever the engine is invoked (assuming the shared page-size
constant is positive, as `EDID_PAGE_SIZE` is), the decoder state it sees has
recorded size equal to `declared_length` and inside `[page_size, capacity]`,
and recorded block count equal to `recorded size / page_size` and inside
`[1, EDID_MAX_BLOCKS]` — never zero blocks. -/
theorem parse_engine_invariant (cfg : Config) (engine : Machine → Int)
    (m : Machine) (len : Nat) (me : Machine)
    (hps : 0 < cfg.EDID_PAGE_SIZE)
    (h : (parse_edid_buffer cfg engine m len).engineArg = some me) :
    me.state.edid_size = len ∧
    cfg.EDID_PAGE_SIZE ≤ me.state.edid_size ∧
    me.state.edid_size ≤ get_edid_buffer_size cfg ∧
    me.state.num_blocks = me.state.edid_size / cfg.EDID_PAGE_SIZE ∧
    1 ≤ me.state.num_blocks ∧
    me.state.num_blocks ≤ cfg.EDID_MAX_BLOCKS := by
  by_cases h1 : len < cfg.EDID_PAGE_SIZE ∨ get_edid_buffer_size cfg < len
  · rw [parse_of_invalid cfg engine m len h1] at h
    exact absurd h (by simp)
  · cases hh : hasEdidHeader m.edid_input_buffer with
    | false =>
      rw [parse_of_noHeader cfg engine m len h1 hh] at h
      exact absurd h (by simp)
    | true =>
      rw [parse_of_ok cfg engine m len h1 hh] at h
      have h' : some (copyAndRecord cfg (resetForParse cfg m) len) = some me := h
      obtain rfl := Option.some.inj h'
      have hlo : cfg.EDID_PAGE_SIZE ≤ len := by omega
      have hhi : len ≤ get_edid_buffer_size cfg := by omega
      refine ⟨rfl, hlo, hhi, rfl, ?_, ?_⟩
      · exact (Nat.one_le_div_iff hps).mpr hlo
      · have hd : len / cfg.EDID_PAGE_SIZE ≤
            (cfg.EDID_PAGE_SIZE * cfg.EDID_MAX_BLOCKS) / cfg.EDID_PAGE_SIZE :=
          Nat.div_le_div_right hhi
        rwa [Nat.mul_div_cancel_left _ hps] at hd

theorem parse_engine_invariant_witness :
    0 < cfgW.EDID_PAGE_SIZE ∧
    (parse_edid_buffer cfgW engineW mW 128).engineArg = some meW ∧
    1 ≤ meW.state.num_blocks ∧ meW.state.num_blocks ≤ cfgW.EDID_MAX_BLOCKS :=
  ⟨by decide, rfl,
    (parse_engine_invariant cfgW engineW mW 128 meW (by decide) rfl).2.2.2.2.1,
    (parse_engine_invariant cfgW engineW mW 128 meW (by decide) rfl).2.2.2.2.2⟩

/-- C9: the accept/reject decision depends only on `declared_length` and the
first 8 staging bytes — two invocations agreeing there either both reject
with `-1` (with identical diagnostics) or both proceed to invoke the engine,
whatever the staging bytes from index 8 on are. -/
theorem parse_decision_first_bytes (cfg : Config) (engine : Machine → Int)
    (m m2 : Machine) (len : Nat)
    (hbuf : ∀ i, i < 8 → m.edid_input_buffer i = m2.edid_input_buffer i) :
    ((parse_edid_buffer cfg engine m len).engineArg = none ↔
      (parse_edid_buffer cfg engine m2 len).engineArg = none) ∧
    ((parse_edid_buffer cfg engine m len).engineArg = none →
      (parse_edid_buffer cfg engine m len).ret = -1 ∧
      (parse_edid_buffer cfg engine m2 len).ret = -1 ∧
      (parse_edid_buffer cfg engine m len).stderr =
        (parse_edid_buffer cfg engine m2 len).stderr) := by
  have hhdr : hasEdidHeader m.edid_input_buffer = hasEdidHeader m2.edid_input_buffer :=
    hasEdidHeader_congr _ _ hbuf
  by_cases h1 : len < cfg.EDID_PAGE_SIZE ∨ get_edid_buffer_size cfg < len
  · rw [parse_of_invalid cfg engine m len h1, parse_of_invalid cfg engine m2 len h1]
    exact ⟨Iff.rfl, fun _ => ⟨rfl, rfl, rfl⟩⟩
  · cases hh : hasEdidHeader m.edid_input_buffer with
    | false =>
      rw [parse_of_noHeader cfg engine m len h1 hh,
        parse_of_noHeader cfg engine m2 len h1 (hhdr ▸ hh)]
      exact ⟨Iff.rfl, fun _ => ⟨rfl, rfl, rfl⟩⟩
    | true =>
      rw [parse_of_ok cfg engine m len h1 hh,
        parse_of_ok cfg engine m2 len h1 (hhdr ▸ hh)]
      exact ⟨by simp, fun hc => absurd hc (by simp)⟩

theorem parse_decision_first_bytes_witness :
    (∀ i, i < 8 → mW.edid_input_buffer i = mW2.edid_input_buffer i) ∧
    (parse_edid_buffer cfgW engineW mW 64).ret = -1 ∧
    (parse_edid_buffer cfgW engineW mW2 64).ret = -1 ∧
    (parse_edid_buffer cfgW engineW mW 64).stderr =
      (parse_edid_buffer cfgW engineW mW2 64).stderr :=
  ⟨by decide,
    (parse_decision_first_bytes cfgW engineW mW mW2 64 (by decide)).2 rfl⟩

/-- C10: an invalid-size rejection and a missing-header rejection return the
same status `-1`; only the diagnostics written to the error sink differ
(both as modelled messages and as rendered text). -/
theorem parse_failures_same_status (cfg : Config) (engine : Machine → Int)
    (m m2 : Machine) (len len2 : Nat)
    (h1 : len < cfg.EDID_PAGE_SIZE ∨ get_edid_buffer_size cfg < len)
    (h2 : ¬ (len2 < cfg.EDID_PAGE_SIZE ∨ get_edid_buffer_size cfg < len2))
    (h3 : hasEdidHeader m2.edid_input_buffer = false) :
    (parse_edid_buffer cfg engine m len).ret = -1 ∧
    (parse_edid_buffer cfg engine m2 len2).ret = -1 ∧
    (parse_edid_buffer cfg engine m len).ret =
      (parse_edid_buffer cfg engine m2 len2).ret ∧
    (parse_edid_buffer cfg engine m len).stderr ≠
      (parse_edid_buffer cfg engine m2 len2).stderr ∧
    (parse_edid_buffer cfg engine m len).stderr.map StderrMsg.text ≠
      (parse_edid_buffer cfg engine m2 len2).stderr.map StderrMsg.text := by
  rw [parse_of_invalid cfg engine m len h1, parse_of_noHeader cfg engine m2 len2 h2 h3]
  refine ⟨rfl, rfl, rfl, by simp, ?_⟩
  simp only [List.map_cons, List.map_nil, ne_eq]
  intro hcontra
  have ht : StderrMsg.text (StderrMsg.invalidSize len) =
      StderrMsg.text StderrMsg.noHeader := (List.cons.inj hcontra).1
  have hlen := congrArg String.length ht
  simp only [StderrMsg.text] at hlen
  rw [String.length_append, String.length_append] at hlen
  have e1 : ("Invalid EDID size: " : String).length = 19 := by decide
  have e2 : (" bytes\n" : String).length = 7 := by decide
  have e3 : ("No EDID header found.\n" : String).length = 22 := by decide
  rw [e1, e2, e3] at hlen
  omega

theorem parse_failures_same_status_witness :
    (64 < cfgW.EDID_PAGE_SIZE ∨ get_edid_buffer_size cfgW < 64) ∧
    ¬ (128 < cfgW.EDID_PAGE_SIZE ∨ get_edid_buffer_size cfgW < 128) ∧
    hasEdidHeader mBad.edid_input_buffer = false ∧
    (parse_edid_buffer cfgW engineW mW 64).ret =
      (parse_edid_buffer cfgW engineW mBad 128).ret ∧
    (parse_edid_buffer cfgW engineW mW 64).stderr ≠
      (parse_edid_buffer cfgW engineW mBad 128).stderr :=
  ⟨by decide, by decide, by decide,
    (parse_failures_same_status cfgW engineW mW mBad 64 128
      (by decide) (by decide) (by decide)).2.2.1,
    (parse_failures_same_status cfgW engineW mW mBad 64 128
      (by decide) (by decide) (by decide)).2.2.2.1⟩

end EdidBuffer
